import Mathlib

/-!
Shallow embedding of the core of `libsql-client-rs` (the libSQL client library):
the value/statement data model, the local backend's `raw_batch`/`batch`
(src/local.rs), the generic transactional batch orchestration (src/client.rs),
the HTTP pipeline backend's session bookkeeping (src/http.rs and
src/reqwest.rs), and the `proto::StmtResult` → `ResultSet` conversion
(src/lib.rs).

External collaborators (the embedded SQL engine of the local backend and the
HTTP transport) are modelled as oracle functions passed in as parameters; the
shapes of the wire-protocol structs (`StmtResult`, `BatchResult`, `Col`,
`proto::Error`, `pipeline::ClientMsg`, `pipeline::ServerMsg`) follow exactly
how the source constructs and destructs them.
-/

namespace Libsql

/-- Wire protocol value (hrana `proto::Value`), as used by src/local.rs and
src/statement.rs: `Null | Integer(i64) | Float(f64) | Text | Blob`.
The float payload is carried opaquely; no claim inspects it. -/
inductive Value where
  | null
  | integer (value : Int)
  | float (value : Float)
  | text (value : String)
  | blob (value : List UInt8)

/-- SQL statement with positional bound parameters (src/statement.rs). -/
structure Statement where
  sql : String
  args : List Value

/-- Statement::new — a simple statement without bound parameters. -/
def Statement.new (q : String) : Statement :=
  { sql := q, args := [] }

/-- Column descriptor (`proto::Col`): an optional name. -/
structure Col where
  name : Option String

/-- Backend statement error carried as data (`proto::Error`). -/
structure ProtoError where
  message : String

/-- Result of one statement (`proto::StmtResult`), as constructed by
src/local.rs lines 161-166 and consumed by src/lib.rs lines 116-147. -/
structure StmtResult where
  cols : List Col
  rows : List (List Value)
  affected_row_count : Nat
  last_insert_rowid : Option Int

/-- Result of a raw batch (`proto::BatchResult`): per-step optional results
and per-step optional errors. -/
structure BatchResult where
  step_results : List (Option StmtResult)
  step_errors : List (Option ProtoError)

/-- Row of a `ResultSet` (src/lib.rs lines 24-28). The `value_map` field only
exists under the `mapping_names_to_values_in_rows` feature; the conversion
without the feature leaves it at its default (here: the empty list). -/
structure Row where
  values : List Value
  value_map : List (String × Value)

/-- Caller-facing result of a query (src/lib.rs lines 104-114). -/
structure ResultSet where
  columns : List String
  rows : List Row
  rows_affected : Nat
  last_insert_rowid : Option Int

/-- Library error type (`libsql::Error` as used through `Error::Misuse`);
other engine-originated error kinds are carried as `backend`. -/
inductive Error where
  | misuse (message : String)
  | backend (message : String)

/-- Columns of the `From<proto::StmtResult> for ResultSet` conversion
(src/lib.rs lines 118-122): each column name, defaulting to the empty
string when absent. -/
def columnNames (cols : List Col) : List String :=
  cols.map (fun c => c.name.getD "")

/-- Conversion `From<proto::StmtResult> for ResultSet` with the
`mapping_names_to_values_in_rows` feature disabled (src/lib.rs lines
116-147 without the cfg-gated map): total, keeps values as-is. -/
def ResultSet.fromStmtResult (value : StmtResult) : ResultSet :=
  { columns := columnNames value.cols
    rows := value.rows.map (fun values => { values := values, value_map := [] })
    rows_affected := value.affected_row_count
    last_insert_rowid := value.last_insert_rowid }

/-- Helper for the cfg-gated name-to-value map of src/lib.rs lines 128-132:
`columns.iter().enumerate().map(|(i, c)| (c.to_string(), values[i].clone()))`.
The Rust indexing `values[i]` panics when `i` is out of bounds; the panic is
modelled by `none`. -/
def buildValueMapGo (values : List Value) : Nat → List String → Option (List (String × Value))
  | _, [] => some []
  | i, c :: cs =>
    match values.get? i with
    | none => none
    | some v => (buildValueMapGo values (i + 1) cs).map (fun rest => (c, v) :: rest)

/-- Name-to-value map of one row, built by indexing the row's values at every
column position (src/lib.rs lines 128-132). `none` models the Rust panic on a
row shorter than the column list. -/
def buildValueMap (columns : List String) (values : List Value) :
    Option (List (String × Value)) :=
  buildValueMapGo values 0 columns

/-- Row conversion loop of src/lib.rs lines 123-139 with the
`mapping_names_to_values_in_rows` feature enabled. -/
def rowsFromStmt (columns : List String) : List (List Value) → Option (List Row)
  | [] => some []
  | values :: rest =>
    match buildValueMap columns values with
    | none => none
    | some vm => (rowsFromStmt columns rest).map (fun rs => ⟨values, vm⟩ :: rs)

/-- Conversion `From<proto::StmtResult> for ResultSet` with the
`mapping_names_to_values_in_rows` feature enabled (src/lib.rs lines 116-147).
`none` models the panic of the `values[i]` indexing inside the map
construction. -/
def ResultSet.fromStmtResultMapped (value : StmtResult) : Option ResultSet :=
  let columns := columnNames value.cols
  match rowsFromStmt columns value.rows with
  | none => none
  | some rows =>
    some { columns := columns
           rows := rows
           rows_affected := value.affected_row_count
           last_insert_rowid := value.last_insert_rowid }

/-! Local backend (src/local.rs). The embedded engine is an oracle: for the
statement at a given position of the batch it reports which of the failure
points of the loop body of `raw_batch` (lines 109-169) fires first, or the
`StmtResult` assembled on success. -/

/-- Outcome of handing one statement to the embedded engine, following the
failure points of the loop body of `local::Client::raw_batch`:
`conn.prepare(sql)?` aborts the whole call (line 119), `stmt.query(&params)`
failing records a per-step error and breaks the loop (lines 128-137),
`input_rows.next()?` aborts the whole call (line 138), and otherwise the
step's `StmtResult` is assembled (lines 139-166). The outcome may depend on
the position in the batch, modelling engine state mutated by earlier
statements. -/
inductive EngineOutcome where
  | prepareErr (message : String)
  | queryErr (message : String)
  | rowsErr (message : String)
  | ok (result : StmtResult)

/-- Loop of `local::Client::raw_batch` (src/local.rs lines 107-173), with the
accumulated `step_results`/`step_errors` made explicit. A `queryErr` pushes
`(None, Some error)` and then breaks: the remaining statements are not
executed, and the accumulated vectors are returned as-is. -/
def rawBatchGo (exec : Nat → Statement → EngineOutcome) :
    Nat → List Statement → List (Option StmtResult) → List (Option ProtoError) →
    Except Error BatchResult
  | _, [], accR, accE => .ok ⟨accR, accE⟩
  | i, stmt :: rest, accR, accE =>
    match exec i stmt with
    | .prepareErr e => .error (.backend e)
    | .rowsErr e => .error (.backend e)
    | .queryErr e => .ok ⟨accR ++ [none], accE ++ [some ⟨e⟩]⟩
    | .ok r => rawBatchGo exec (i + 1) rest (accR ++ [some r]) (accE ++ [none])

/-- `local::Client::raw_batch` (src/local.rs lines 103-174), over the engine
oracle `exec`. -/
def localRawBatch (exec : Nat → Statement → EngineOutcome)
    (stmts : List Statement) : Except Error BatchResult :=
  rawBatchGo exec 0 stmts [] []

/-- Wrapping of the caller's statements for the transactional batch:
`[BEGIN, ...stmts, END]` (src/client.rs lines 102-104, src/local.rs lines
187-189). -/
def wrapTx (stmts : List Statement) : List Statement :=
  Statement.new "BEGIN" :: (stmts ++ [Statement.new "END"])

/-- Rust's `collect::<Result<Vec<ResultSet>>>()` over an iterator of results
(src/client.rs line 128, src/local.rs line 212): the whole list on success,
the first error otherwise. -/
def collectResults : List (Except Error ResultSet) → Except Error (List ResultSet)
  | [] => .ok []
  | .error e :: _ => .error e
  | .ok r :: rest => (collectResults rest).map (fun l => r :: l)

/-- Transactional batch orchestration (`Client::batch`, src/client.rs lines
93-129; `local::Client::batch`, src/local.rs lines 182-213, is the identical
algorithm over the local `raw_batch`), generic over which backend provides
`raw_batch`. Scans `step_errors` skipping index 0 for the first populated
error; otherwise drops the BEGIN result (skip 1), converts each remaining
optional result (a missing one is the "Unexpected missing result set" misuse
error), pops the END entry, and sequences the rest. -/
def clientBatch (rawBatchFn : List Statement → Except Error BatchResult)
    (stmts : List Statement) : Except Error (List ResultSet) :=
  match rawBatchFn (wrapTx stmts) with
  | .error e => .error e
  | .ok batch_results =>
    match (batch_results.step_errors.drop 1).findSome? id with
    | some error => .error (.misuse error.message)
    | none =>
      let step_results : List (Except Error ResultSet) :=
        (batch_results.step_results.drop 1).map
          (fun maybe_rs =>
            match maybe_rs with
            | some rs => .ok (ResultSet.fromStmtResult rs)
            | none => .error (.misuse "Unexpected missing result set"))
      collectResults step_results.dropLast

/-- `local::Client::batch` (src/local.rs lines 182-213). -/
def localBatch (exec : Nat → Statement → EngineOutcome)
    (stmts : List Statement) : Except Error (List ResultSet) :=
  clientBatch (localRawBatch exec) stmts

/-! HTTP pipeline backends (src/http.rs and src/reqwest.rs). The transport is
an oracle `send : url → ClientMsg → Except String ServerMsg`; its error case
models a failed POST (transport failure or, where the code checks it, a
non-OK status) before a `pipeline::ServerMsg` could be obtained. -/

/-- Hrana statement (`proto::Stmt`) as produced by `into_hrana`
(src/http.rs lines 100-106): the SQL text, `want_rows = true`, and every
positional arg bound in order. -/
structure Stmt where
  sql : String
  want_rows : Bool
  args : List Value

/-- `into_hrana` (src/http.rs lines 100-106, src/reqwest.rs lines 139-145). -/
def intoHrana (stmt : Statement) : Stmt :=
  { sql := stmt.sql, want_rows := true, args := stmt.args }

/-- One request of a pipeline message (`pipeline::StreamRequest`). The batch
payload is its list of steps. -/
inductive StreamRequest where
  | execute (stmt : Stmt)
  | batch (steps : List Stmt)
  | close

/-- Outbound pipeline message (`pipeline::ClientMsg`). -/
structure ClientMsg where
  baton : Option String
  requests : List StreamRequest

/-- Payload of a successful pipeline response (`pipeline::StreamResponse`). -/
inductive StreamResponse where
  | execute (result : StmtResult)
  | batchResp (result : BatchResult)
  | close

/-- One per-request response (`pipeline::Response`). -/
inductive PipelineResponse where
  | ok (response : StreamResponse)
  | error (e : ProtoError)

/-- Inbound pipeline message (`pipeline::ServerMsg`): continuation baton,
optional redirect base URL, and one response per request. -/
structure ServerMsg where
  baton : Option String
  base_url : Option String
  results : List PipelineResponse

/-- Error outcomes of the HTTP backends' operations, one per `bail!`/error
path of src/http.rs and src/reqwest.rs. -/
inductive HttpError where
  | transport (message : String)
  | streamClosed
  | emptyResponse
  | multipleResponses
  | unexpectedResponse
  | serverError (e : ProtoError)

/-- Transport oracle: POST `ClientMsg` to a URL, get back a deserialized
`ServerMsg` or a failure. -/
abbrev SendFn := String → ClientMsg → Except String ServerMsg

/-- Session cookie of the generic HTTP backend (src/http.rs lines 10-14):
server-generated baton and optional redirect URL. `Default` has both empty. -/
structure Cookie where
  baton : Option String
  base_url : Option String

instance : Inhabited Cookie := ⟨⟨none, none⟩⟩

/-- Association map keyed by transaction id, modelling the
`HashMap<u64, _>` session maps of src/http.rs and src/reqwest.rs. -/
def AssocMap (α : Type) := List (Nat × α)

/-- `HashMap::get` (by key). -/
def AssocMap.find? (m : AssocMap α) (k : Nat) : Option α :=
  List.lookup k m

/-- `HashMap::remove`. -/
def AssocMap.erase (m : AssocMap α) (k : Nat) : AssocMap α :=
  m.filter (fun p => p.1 != k)

/-- `HashMap::insert` (replacing any previous value for the key). -/
def AssocMap.insert (m : AssocMap α) (k : Nat) (v : α) : AssocMap α :=
  (k, v) :: AssocMap.erase m k

/-- Cookie map of the generic HTTP backend (`cookies` field, src/http.rs
line 21). -/
abbrev CookieMap := AssocMap Cookie

/-- Baton map of the reqwest backend (`batons` field, src/reqwest.rs
line 14). -/
abbrev BatonMap := AssocMap String

/-- Cookie consulted by `http::Client::execute_inner` (src/http.rs lines
163-172): the stored cookie for `tx_id` when `tx_id > 0`, falling back to
`Cookie::default()` when absent; the default cookie for `tx_id = 0`. -/
def requestCookie (cookies : CookieMap) (txId : Nat) : Cookie :=
  if 0 < txId then (AssocMap.find? cookies txId).getD default else default

/-- Outbound message built by `http::Client::execute_inner` (src/http.rs
lines 173-178): the consulted cookie's baton and a single Execute request. -/
def requestMsg (cookies : CookieMap) (txId : Nat) (stmt : Statement) : ClientMsg :=
  { baton := (requestCookie cookies txId).baton
    requests := [.execute (intoHrana stmt)] }

/-- URL targeted by `http::Client::execute_inner` (src/http.rs lines
180-182): the consulted cookie's `base_url` when present, the client's
`url_for_queries` otherwise. -/
def requestUrl (cookies : CookieMap) (txId : Nat) (urlForQueries : String) : String :=
  (requestCookie cookies txId).base_url.getD urlForQueries

/-- Response validation shared by the tail of `execute_inner` (src/http.rs
lines 202-225, src/reqwest.rs lines 246-268): exactly one response is
expected, and it must be an Ok Execute result. -/
def handleExecuteResults (resp : ServerMsg) : Except HttpError ResultSet :=
  if resp.results.isEmpty then .error .emptyResponse
  else if resp.results.length > 1 then .error .multipleResponses
  else
    match resp.results with
    | [PipelineResponse.ok (.execute execute_result)] =>
      .ok (ResultSet.fromStmtResult execute_result)
    | [PipelineResponse.ok _] => .error .unexpectedResponse
    | [PipelineResponse.error e] => .error (.serverError e)
    | _ => .error .multipleResponses

/-- `http::Client::execute_inner` (src/http.rs lines 156-225), returning the
cookie map after the call alongside the result. When `tx_id > 0`: the stored
(or default) cookie supplies the outbound baton and URL; on response, a
returned baton (with any `base_url`) is stored under `tx_id` before the
results are validated, and an absent baton is the fatal
"Stream closed: server returned empty baton" error. -/
def executeInner (send : SendFn) (urlForQueries : String) (cookies : CookieMap)
    (txId : Nat) (stmt : Statement) : CookieMap × Except HttpError ResultSet :=
  match send (requestUrl cookies txId urlForQueries) (requestMsg cookies txId stmt) with
  | .error e => (cookies, .error (.transport e))
  | .ok resp =>
    if 0 < txId then
      match resp.baton with
      | some baton =>
        let cookies' := AssocMap.insert cookies txId ⟨some baton, resp.base_url⟩
        (cookies', handleExecuteResults resp)
      | none => (cookies, .error .streamClosed)
    else (cookies, handleExecuteResults resp)

/-- `http::Client::close_stream_for` (src/http.rs lines 227-246): best-effort
Close request built from the stored (or default) cookie, whose outcome is
discarded (`.ok()`); the cookie entry is removed unconditionally and the
function always succeeds. -/
def closeStreamFor (send : SendFn) (urlForQueries : String) (cookies : CookieMap)
    (txId : Nat) : CookieMap × Except HttpError Unit :=
  let cookie := (AssocMap.find? cookies txId).getD default
  let msg : ClientMsg := { baton := cookie.baton, requests := [.close] }
  let url := cookie.base_url.getD urlForQueries
  let _ := send url msg
  (AssocMap.erase cookies txId, .ok ())

/-- `http::Client::commit_transaction` (src/http.rs lines 258-262): COMMIT
via `execute_inner` (propagating its failure), then best-effort
`close_stream_for` whose failure is swallowed, then Ok. -/
def commitTransaction (send : SendFn) (urlForQueries : String)
    (cookies : CookieMap) (txId : Nat) : CookieMap × Except HttpError Unit :=
  match executeInner send urlForQueries cookies txId (Statement.new "COMMIT") with
  | (cookies', .error e) => (cookies', .error e)
  | (cookies', .ok _) =>
    let closed := closeStreamFor send urlForQueries cookies' txId
    (closed.1, .ok ())

/-- `http::Client::rollback_transaction` (src/http.rs lines 264-268). -/
def rollbackTransaction (send : SendFn) (urlForQueries : String)
    (cookies : CookieMap) (txId : Nat) : CookieMap × Except HttpError Unit :=
  match executeInner send urlForQueries cookies txId (Statement.new "ROLLBACK") with
  | (cookies', .error e) => (cookies', .error e)
  | (cookies', .ok _) =>
    let closed := closeStreamFor send urlForQueries cookies' txId
    (closed.1, .ok ())

/-- `reqwest::Client::execute_inner` (src/reqwest.rs lines 204-269): like the
generic HTTP backend but the session map stores bare batons, there is no
redirect URL, and the request always targets `url_for_queries`. -/
def reqwestExecuteInner (send : SendFn) (urlForQueries : String)
    (batons : BatonMap) (txId : Nat) (stmt : Statement) :
    BatonMap × Except HttpError ResultSet :=
  let baton := if 0 < txId then AssocMap.find? batons txId else none
  let msg : ClientMsg := { baton := baton, requests := [.execute (intoHrana stmt)] }
  match send urlForQueries msg with
  | .error e => (batons, .error (.transport e))
  | .ok resp =>
    if 0 < txId then
      match resp.baton with
      | some b => (AssocMap.insert batons txId b, handleExecuteResults resp)
      | none => (batons, .error .streamClosed)
    else (batons, handleExecuteResults resp)

/-- `reqwest::Client::close_stream_for` (src/reqwest.rs lines 271-285): the
Close request's send failure is propagated with `?` BEFORE the baton entry is
removed, so on a failed send the entry stays in the map. -/
def reqwestCloseStreamFor (send : SendFn) (urlForQueries : String)
    (batons : BatonMap) (txId : Nat) : BatonMap × Except HttpError Unit :=
  let msg : ClientMsg := { baton := AssocMap.find? batons txId, requests := [.close] }
  match send urlForQueries msg with
  | .error e => (batons, .error (.transport e))
  | .ok _ => (AssocMap.erase batons txId, .ok ())

/-- `reqwest::Client::commit_transaction` (src/reqwest.rs lines 297-301):
COMMIT via `execute_inner` (propagating its failure), then
`close_stream_for` whose failure is swallowed (`.ok()`), then Ok. -/
def reqwestCommitTransaction (send : SendFn) (urlForQueries : String)
    (batons : BatonMap) (txId : Nat) : BatonMap × Except HttpError Unit :=
  match reqwestExecuteInner send urlForQueries batons txId (Statement.new "COMMIT") with
  | (batons', .error e) => (batons', .error e)
  | (batons', .ok _) =>
    let closed := reqwestCloseStreamFor send urlForQueries batons' txId
    (closed.1, .ok ())

/-! Helper lemmas shared by several developments. -/

theorem assoc_find_insert_self (m : AssocMap α) (k : Nat) (v : α) :
    AssocMap.find? (AssocMap.insert m k v) k = some v := by
  simp [AssocMap.insert, AssocMap.find?, List.lookup]

theorem assoc_find_erase_self (m : AssocMap α) (k : Nat) :
    AssocMap.find? (AssocMap.erase m k) k = none := by
  induction m with
  | nil => rfl
  | cons p t ih =>
    rcases p with ⟨a, v⟩
    by_cases h : a = k
    · have hne : ((a, v).1 != k) = false := by simp [h]
      simpa [AssocMap.erase, List.filter_cons, hne] using ih
    · have hne : ((a, v).1 != k) = true := by simp [h]
      have hk : (k == a) = false := by simp [Ne.symm h]
      simpa [AssocMap.erase, List.filter_cons, hne, AssocMap.find?,
        List.lookup, hk] using ih

theorem collectResults_map_ok (l : List ResultSet) :
    collectResults (l.map Except.ok) = Except.ok l := by
  induction l with
  | nil => rfl
  | cons a t ih => simp [collectResults, ih, Except.map]

theorem findSome_id_of_map_none (l : List α) :
    (l.map (fun _ => (none : Option ProtoError))).findSome? id = none := by
  induction l with
  | nil => rfl
  | cons a t ih => simp [List.findSome?, ih]

/-! C10 development: totality of the feature-enabled StmtResult → ResultSet
conversion. -/

theorem buildValueMapGo_isSome (values : List Value) :
    ∀ (cs : List String) (i : Nat),
      (buildValueMapGo values i cs).isSome = true ↔
        ∀ j, j < cs.length → i + j < values.length := by
  intro cs
  induction cs with
  | nil => intro i; simp [buildValueMapGo]
  | cons c t ih =>
    intro i
    cases hv : values.get? i with
    | none =>
      have hlen : ¬ i < values.length := by
        have := List.get?_eq_none.mp hv
        omega
      simp only [buildValueMapGo, hv]
      constructor
      · intro h; cases h
      · intro h
        exact absurd (by simpa using h 0 (by simp)) hlen
    | some v =>
      have hlen : i < values.length := by
        by_contra hc
        push_neg at hc
        rw [List.get?_eq_none.mpr hc] at hv
        cases hv
      have hmap : ∀ (o : Option (List (String × Value))),
          (o.map (fun rest => (c, v) :: rest)).isSome = o.isSome := by
        intro o; cases o <;> rfl
      simp only [buildValueMapGo, hv, hmap]
      rw [ih (i + 1)]
      constructor
      · intro h j hj
        cases j with
        | zero => simpa using hlen
        | succ j' =>
          have := h j' (by simp at hj; omega)
          omega
      · intro h j hj
        have := h (j + 1) (by simpa using hj)
        omega

theorem buildValueMap_isSome (columns : List String) (values : List Value) :
    (buildValueMap columns values).isSome = true ↔ columns.length ≤ values.length := by
  rw [buildValueMap, buildValueMapGo_isSome]
  constructor
  · intro h
    by_contra hb
    push_neg at hb
    have := h values.length (by omega)
    omega
  · intro h j hj
    omega

theorem rowsFromStmt_isSome (columns : List String) (rows : List (List Value)) :
    (rowsFromStmt columns rows).isSome = true ↔
      ∀ values ∈ rows, columns.length ≤ values.length := by
  induction rows with
  | nil => simp [rowsFromStmt]
  | cons r t ih =>
    cases hb : buildValueMap columns r with
    | none =>
      have : ¬ columns.length ≤ r.length := by
        rw [← buildValueMap_isSome columns r, hb]
        simp
      simp [rowsFromStmt, hb, this]
    | some vm =>
      have hr : columns.length ≤ r.length := by
        rw [← buildValueMap_isSome columns r, hb]
        simp
      simp [rowsFromStmt, hb, Option.isSome_map, ih, hr]

/-! Structural lemmas about the local raw_batch loop. -/

theorem rawBatchGo_shape (exec : Nat → Statement → EngineOutcome) :
    ∀ (stmts : List Statement) (i : Nat) (accR : List (Option StmtResult))
      (accE : List (Option ProtoError)) (br : BatchResult),
      rawBatchGo exec i stmts accR accE = .ok br →
      accR.length = accE.length →
      (∀ j, j < accR.length →
        (accR.getD j none).isSome = (accE.getD j none).isNone) →
      br.step_results.length = br.step_errors.length ∧
      br.step_results.length ≤ accR.length + stmts.length ∧
      accR.length ≤ br.step_results.length ∧
      ∀ j, j < br.step_results.length →
        (br.step_results.getD j none).isSome = (br.step_errors.getD j none).isNone := by
  intro stmts
  induction stmts with
  | nil =>
    intro i accR accE br hgo hlen hexcl
    cases hgo
    exact ⟨hlen, by simp, by simp, hexcl⟩
  | cons s rest ih =>
    intro i accR accE br hgo hlen hexcl
    cases hexec : exec i s with
    | prepareErr e => rw [rawBatchGo, hexec] at hgo; cases hgo
    | rowsErr e => rw [rawBatchGo, hexec] at hgo; cases hgo
    | queryErr e =>
      rw [rawBatchGo, hexec] at hgo
      cases hgo
      refine ⟨by simp [hlen], by simp, by simp, ?_⟩
      intro j hj
      simp only [List.length_append, List.length_cons, List.length_nil] at hj
      by_cases hlt : j < accR.length
      · rw [List.getD_append _ _ _ _ hlt, List.getD_append _ _ _ _ (hlen ▸ hlt)]
        exact hexcl j hlt
      · have hj' : j = accR.length := by omega
        subst hj'
        rw [List.getD_append_right _ _ _ _ (le_refl _),
          List.getD_append_right _ _ _ _ (le_of_eq hlen.symm)]
        simp [hlen]
    | ok r =>
      rw [rawBatchGo, hexec] at hgo
      have hlen' : (accR ++ [some r]).length = (accE ++ [none]).length := by
        simp [hlen]
      have hexcl' : ∀ j, j < (accR ++ [some r]).length →
          (((accR ++ [some r]).getD j none).isSome =
            ((accE ++ [none]).getD j none).isNone) := by
        intro j hj
        simp only [List.length_append, List.length_cons, List.length_nil] at hj
        by_cases hlt : j < accR.length
        · rw [List.getD_append _ _ _ _ hlt, List.getD_append _ _ _ _ (hlen ▸ hlt)]
          exact hexcl j hlt
        · have hj' : j = accR.length := by omega
          subst hj'
          rw [List.getD_append_right _ _ _ _ (le_refl _),
            List.getD_append_right _ _ _ _ (le_of_eq hlen.symm)]
          simp [hlen]
      have := ih (i + 1) (accR ++ [some r]) (accE ++ [none]) br hgo hlen' hexcl'
      refine ⟨this.1, ?_, ?_, this.2.2.2⟩
      · have := this.2.1
        simp only [List.length_append, List.length_cons, List.length_nil] at this ⊢
        omega
      · have := this.2.2.1
        simp only [List.length_append, List.length_cons, List.length_nil] at this
        omega

theorem rawBatchGo_trace (exec : Nat → Statement → EngineOutcome)
    (rsf : Nat → StmtResult) (e : String) :
    ∀ (k : Nat) (stmts : List Statement) (i : Nat)
      (accR : List (Option StmtResult)) (accE : List (Option ProtoError)),
      k < stmts.length →
      (∀ j, j < k → exec (i + j) (stmts.getD j (Statement.new "")) = .ok (rsf (i + j))) →
      exec (i + k) (stmts.getD k (Statement.new "")) = .queryErr e →
      rawBatchGo exec i stmts accR accE =
        .ok ⟨accR ++ (List.range k).map (fun j => some (rsf (i + j))) ++ [none],
             accE ++ (List.range k).map (fun _ => none) ++ [some ⟨e⟩]⟩ := by
  intro k
  induction k with
  | zero =>
    intro stmts i accR accE hk hpre herr
    cases stmts with
    | nil => simp at hk
    | cons s rest =>
      have hs : exec i s = .queryErr e := by simpa using herr
      simp [rawBatchGo, hs]
  | succ k ih =>
    intro stmts i accR accE hk hpre herr
    cases stmts with
    | nil => simp at hk
    | cons s rest =>
      have hs : exec i s = .ok (rsf i) := by simpa using hpre 0 (by omega)
      rw [rawBatchGo, hs]
      show rawBatchGo exec (i + 1) rest (accR ++ [some (rsf i)]) (accE ++ [none]) = _
      have hpre' : ∀ j, j < k →
          exec (i + 1 + j) (rest.getD j (Statement.new "")) = .ok (rsf (i + 1 + j)) := by
        intro j hj
        have := hpre (j + 1) (by omega)
        have harith : i + (j + 1) = i + 1 + j := by omega
        simpa [harith] using this
      have herr' : exec (i + 1 + k) (rest.getD k (Statement.new "")) = .queryErr e := by
        have harith : i + (k + 1) = i + 1 + k := by omega
        simpa [harith] using herr
      have := ih rest (i + 1) (accR ++ [some (rsf i)]) (accE ++ [none])
        (by simpa using hk) hpre' herr'
      rw [this]
      have hfun : (fun j => some (rsf (i + 1 + j))) =
          (fun j => some (rsf (i + (j + 1)))) := by
        funext j
        have : i + 1 + j = i + (j + 1) := by omega
        rw [this]
      congr 1
      refine congrArg₂ BatchResult.mk ?_ ?_
      · rw [hfun]
        simp [List.range_succ_eq_map, List.map_map, Function.comp, List.append_assoc]
      · simp [List.range_succ_eq_map, List.map_map, Function.comp, List.append_assoc,
          List.map_const', Function.comp_def]

theorem rawBatchGo_allOk (exec : Nat → Statement → EngineOutcome)
    (rsf : Nat → StmtResult) :
    ∀ (stmts : List Statement) (i : Nat)
      (accR : List (Option StmtResult)) (accE : List (Option ProtoError)),
      (∀ j, j < stmts.length →
        exec (i + j) (stmts.getD j (Statement.new "")) = .ok (rsf (i + j))) →
      rawBatchGo exec i stmts accR accE =
        .ok ⟨accR ++ (List.range stmts.length).map (fun j => some (rsf (i + j))),
             accE ++ (List.range stmts.length).map (fun _ => none)⟩ := by
  intro stmts
  induction stmts with
  | nil =>
    intro i accR accE hall
    simp [rawBatchGo]
  | cons s rest ih =>
    intro i accR accE hall
    have hs : exec i s = .ok (rsf i) := by simpa using hall 0 (by simp)
    rw [rawBatchGo, hs]
    show rawBatchGo exec (i + 1) rest (accR ++ [some (rsf i)]) (accE ++ [none]) = _
    have hall' : ∀ j, j < rest.length →
        exec (i + 1 + j) (rest.getD j (Statement.new "")) = .ok (rsf (i + 1 + j)) := by
      intro j hj
      have := hall (j + 1) (by simp; omega)
      have harith : i + (j + 1) = i + 1 + j := by omega
      simpa [harith] using this
    rw [ih (i + 1) (accR ++ [some (rsf i)]) (accE ++ [none]) hall']
    have hfun : (fun j => some (rsf (i + 1 + j))) =
        (fun j => some (rsf (i + (j + 1)))) := by
      funext j
      have : i + 1 + j = i + (j + 1) := by omega
      rw [this]
    congr 1
    refine congrArg₂ BatchResult.mk ?_ ?_
    · rw [hfun]
      simp [List.range_succ_eq_map, List.map_map, Function.comp, List.append_assoc]
    · simp [List.range_succ_eq_map, List.map_map, Function.comp, List.append_assoc,
        List.map_const', Function.comp_def]

theorem drop_one_range_map (f : Nat → α) (n : Nat) :
    (((List.range (n + 1)).map f).drop 1) = (List.range n).map (fun j => f (j + 1)) := by
  rw [List.range_succ_eq_map]
  simp [List.map_map, Function.comp_def]

theorem dropLast_range_map (f : Nat → α) (n : Nat) :
    ((List.range (n + 1)).map f).dropLast = (List.range n).map f := by
  rw [List.range_succ]
  simp

theorem clientBatch_ok_no_error (rawFn : List Statement → Except Error BatchResult)
    (stmts : List Statement) (br : BatchResult)
    (hraw : rawFn (wrapTx stmts) = .ok br)
    (herr : (br.step_errors.drop 1).findSome? id = none) :
    clientBatch rawFn stmts =
      collectResults (((br.step_results.drop 1).map
        (fun maybe_rs =>
          match maybe_rs with
          | some rs => .ok (ResultSet.fromStmtResult rs)
          | none => .error (.misuse "Unexpected missing result set"))).dropLast) := by
  rw [clientBatch, hraw]
  simp only [herr]

/-! Concrete inputs used by counterexamples and witnesses. -/

/-- A distinguishable, row-free statement result. -/
def sampleResult (n : Nat) : StmtResult :=
  { cols := [], rows := [], affected_row_count := n, last_insert_rowid := none }

/-- Engine oracle where the statement at position 1 (the second of three)
fails at query time and every other statement succeeds. -/
def failAt1Exec : Nat → Statement → EngineOutcome
  | 0, _ => .ok (sampleResult 0)
  | 1, _ => .queryErr "table is locked"
  | _, _ => .ok (sampleResult 2)

/-- Three submitted statements. -/
def threeStmts : List Statement :=
  [Statement.new "INSERT INTO t VALUES (0)",
   Statement.new "INSERT INTO u VALUES (1)",
   Statement.new "INSERT INTO t VALUES (2)"]

/-- C1 (counterexample): running the local raw_batch on 3 statements where
statement 2 of 3 fails at query time does NOT execute the third statement:
the returned BatchResult has only 2 entries (index 1 being the failure), so
there is no index 2 carrying the third statement's own result, although the
oracle would have succeeded there. -/
theorem C1_counterexample :
    localRawBatch failAt1Exec threeStmts =
      .ok { step_results := [some (sampleResult 0), none],
            step_errors := [none, some ⟨"table is locked"⟩] } ∧
    threeStmts.length = 3 ∧
    ([some (sampleResult 0), none] : List (Option StmtResult)).length = 2 ∧
    (2 : Nat) ≠ 3 :=
  ⟨rfl, rfl, rfl, by decide⟩

/-- C1 (amended): in the local backend's raw_batch, when the statement at
position k is the first to fail at query time, the loop breaks: statements
after k are NOT executed; the returned BatchResult has exactly k+1 entries,
index j < k carrying statement j's own successful result and index k the pair
(None, Some error). -/
theorem C1_amended_raw_batch_break (exec : Nat → Statement → EngineOutcome)
    (stmts : List Statement) (rsf : Nat → StmtResult) (k : Nat) (e : String)
    (hk : k < stmts.length)
    (hpre : ∀ j, j < k → exec j (stmts.getD j (Statement.new "")) = .ok (rsf j))
    (herr : exec k (stmts.getD k (Statement.new "")) = .queryErr e) :
    localRawBatch exec stmts =
      .ok { step_results := (List.range k).map (fun j => some (rsf j)) ++ [none],
            step_errors := (List.range k).map (fun _ => none) ++ [some ⟨e⟩] } := by
  have := rawBatchGo_trace exec rsf e k stmts 0 [] [] hk
    (by intro j hj; simpa using hpre j hj) (by simpa using herr)
  simpa [localRawBatch] using this

/-- C1 (witness): the amended theorem applied at the concrete 3-statement
input whose second statement fails. -/
theorem C1_witness :
    localRawBatch failAt1Exec threeStmts =
      .ok { step_results := [some (sampleResult 0), none],
            step_errors := [none, some ⟨"table is locked"⟩] } := by
  have h := C1_amended_raw_batch_break failAt1Exec threeStmts
    (fun _ => sampleResult 0) 1 "table is locked" (by decide)
    (by intro j hj; interval_cases j; rfl) rfl
  simpa using h

/-- C2 (counterexample): for the same 3-statement input, the local raw_batch
returns step vectors of length 2, not length 3 = the number of submitted
statements, refuting the claimed equal-to-N lengths. -/
theorem C2_counterexample :
    localRawBatch failAt1Exec threeStmts =
      .ok { step_results := [some (sampleResult 0), none],
            step_errors := [none, some ⟨"table is locked"⟩] } ∧
    threeStmts.length = 3 ∧
    ([none, some ⟨"table is locked"⟩] : List (Option ProtoError)).length ≠ threeStmts.length :=
  ⟨rfl, rfl, by decide⟩

/-- C2 (amended): whenever the local raw_batch returns a BatchResult, its two
step vectors have equal length, that length is at most the number of
submitted statements (equality can fail because a query-time failure breaks
the loop), and at every index exactly one of step_results and step_errors is
populated. -/
theorem C2_amended_shape (exec : Nat → Statement → EngineOutcome)
    (stmts : List Statement) (br : BatchResult)
    (h : localRawBatch exec stmts = .ok br) :
    br.step_results.length = br.step_errors.length ∧
    br.step_results.length ≤ stmts.length ∧
    ∀ j, j < br.step_results.length →
      (br.step_results.getD j none).isSome = (br.step_errors.getD j none).isNone := by
  have := rawBatchGo_shape exec stmts 0 [] [] br h rfl (by intro j hj; simp at hj)
  exact ⟨this.1, by simpa using this.2.1, this.2.2.2⟩

/-- C2 (witness): the amended shape theorem applied at the concrete
3-statement input whose second statement fails. -/
theorem C2_witness :
    ([some (sampleResult 0), none] : List (Option StmtResult)).length =
      ([none, some ⟨"table is locked"⟩] : List (Option ProtoError)).length ∧
    ([some (sampleResult 0), none] : List (Option StmtResult)).length ≤ threeStmts.length ∧
    (([some (sampleResult 0), none] : List (Option StmtResult)).getD 1 none).isSome =
      (([none, some ⟨"table is locked"⟩] : List (Option ProtoError)).getD 1 none).isNone := by
  have h := C2_amended_shape failAt1Exec threeStmts
    { step_results := [some (sampleResult 0), none],
      step_errors := [none, some ⟨"table is locked"⟩] } rfl
  exact ⟨h.1, h.2.1, h.2.2 1 (by decide)⟩

/-- C3 (confirmed): when the synthetic BEGIN, all N caller statements and the
synthetic END succeed, the local transactional batch returns Ok with exactly
N ResultSets, in submission order (the result of wrapped position j+1 at
output position j), the BEGIN and END entries stripped. -/
theorem C3_batch_strips_begin_end (exec : Nat → Statement → EngineOutcome)
    (stmts : List Statement) (rsf : Nat → StmtResult)
    (h : ∀ j, j < (wrapTx stmts).length →
      exec j ((wrapTx stmts).getD j (Statement.new "")) = .ok (rsf j)) :
    localBatch exec stmts =
      .ok ((List.range stmts.length).map (fun j => ResultSet.fromStmtResult (rsf (j + 1)))) ∧
    ((List.range stmts.length).map
      (fun j => ResultSet.fromStmtResult (rsf (j + 1)))).length = stmts.length := by
  have hwrap : (wrapTx stmts).length = stmts.length + 2 := by simp [wrapTx]
  have hraw : localRawBatch exec (wrapTx stmts) =
      .ok { step_results := (List.range (stmts.length + 2)).map (fun j => some (rsf j)),
            step_errors := (List.range (stmts.length + 2)).map (fun _ => none) } := by
    have := rawBatchGo_allOk exec rsf (wrapTx stmts) 0 [] []
      (by intro j hj; simpa using h j hj)
    simpa [localRawBatch, hwrap] using this
  have herr : ((((List.range (stmts.length + 2)).map
      (fun _ => (none : Option ProtoError)))).drop 1).findSome? id = none := by
    rw [drop_one_range_map (fun _ => (none : Option ProtoError)) (stmts.length + 1)]
    exact findSome_id_of_map_none _
  refine ⟨?_, by simp⟩
  rw [localBatch, clientBatch_ok_no_error (localRawBatch exec) stmts _ hraw herr]
  rw [drop_one_range_map (fun j => some (rsf j)) (stmts.length + 1)]
  rw [List.map_map]
  have hcomp : ((fun maybe_rs =>
      match maybe_rs with
      | some rs => (.ok (ResultSet.fromStmtResult rs) : Except Error ResultSet)
      | none => .error (.misuse "Unexpected missing result set")) ∘
        (fun j => some (rsf (j + 1)))) =
      fun j => .ok (ResultSet.fromStmtResult (rsf (j + 1))) := by
    funext j
    rfl
  rw [hcomp, dropLast_range_map (fun j => (.ok (ResultSet.fromStmtResult (rsf (j + 1))) :
    Except Error ResultSet)) stmts.length]
  have hmap : (List.range stmts.length).map
      (fun j => (.ok (ResultSet.fromStmtResult (rsf (j + 1))) : Except Error ResultSet)) =
      ((List.range stmts.length).map (fun j => ResultSet.fromStmtResult (rsf (j + 1)))).map
        Except.ok := by
    rw [List.map_map]
    rfl
  rw [hmap, collectResults_map_ok]

/-- Engine oracle where every statement of the wrapped batch succeeds. -/
def allOkExec : Nat → Statement → EngineOutcome :=
  fun i _ => .ok (sampleResult i)

/-- C3 (witness): the theorem applied at a concrete 1-statement batch where
BEGIN, the statement and END all succeed; the single visible result is the
one of wrapped position 1. -/
theorem C3_witness :
    localBatch allOkExec [Statement.new "SELECT 1"] =
      .ok [ResultSet.fromStmtResult (sampleResult 1)] := by
  have h := C3_batch_strips_begin_end allOkExec [Statement.new "SELECT 1"]
    (fun i => sampleResult i)
    (by intro j hj; simp [wrapTx] at hj; interval_cases j <;> rfl)
  simpa using h.1

/-- C4 (confirmed): in the generic transactional batch orchestration
(Client::batch), when the first populated entry of step_errors after the
BEGIN slot is e, the call returns the single error Misuse(e.message) and no
result list. -/
theorem C4_fail_fast (rawFn : List Statement → Except Error BatchResult)
    (stmts : List Statement) (br : BatchResult) (e : ProtoError)
    (hraw : rawFn (wrapTx stmts) = .ok br)
    (hfind : (br.step_errors.drop 1).findSome? id = some e) :
    clientBatch rawFn stmts = .error (.misuse e.message) := by
  rw [clientBatch, hraw]
  simp only [hfind]

/-- Backend returning a fixed BatchResult whose second step (the first caller
statement) failed. -/
def failSecondRaw : List Statement → Except Error BatchResult :=
  fun _ =>
    .ok { step_results := [some (sampleResult 0), none, some (sampleResult 2),
            some (sampleResult 3)],
          step_errors := [none, some ⟨"UNIQUE constraint failed"⟩, none, none] }

/-- C4 (witness): the fail-fast theorem applied at a concrete BatchResult
whose first caller statement failed. -/
theorem C4_witness :
    clientBatch failSecondRaw
      [Statement.new "INSERT INTO t VALUES (1)", Statement.new "SELECT 1"] =
      .error (.misuse "UNIQUE constraint failed") :=
  C4_fail_fast failSecondRaw
    [Statement.new "INSERT INTO t VALUES (1)", Statement.new "SELECT 1"]
    { step_results := [some (sampleResult 0), none, some (sampleResult 2),
        some (sampleResult 3)],
      step_errors := [none, some ⟨"UNIQUE constraint failed"⟩, none, none] }
    ⟨"UNIQUE constraint failed"⟩ rfl rfl

/-- C9 (confirmed): when the synthetic BEGIN itself fails at query time, the
local raw_batch stops with a single (None, Some error) entry at index 0, the
transactional batch's error scan skips that index 0, and the call returns Ok
with an EMPTY result list for a non-empty input instead of an error or N
results. -/
theorem C9_begin_failure_swallowed (exec : Nat → Statement → EngineOutcome)
    (stmts : List Statement) (e : String)
    (_hne : stmts ≠ [])
    (hbegin : exec 0 (Statement.new "BEGIN") = .queryErr e) :
    localBatch exec stmts = .ok [] := by
  have hraw : localRawBatch exec (wrapTx stmts) = .ok ⟨[none], [some ⟨e⟩]⟩ := by
    rw [localRawBatch, wrapTx, rawBatchGo, hbegin]
    rfl
  rw [localBatch, clientBatch, hraw]
  rfl

/-- Engine oracle where every statement fails at query time. -/
def beginFailsExec : Nat → Statement → EngineOutcome :=
  fun _ _ => .queryErr "cannot start a transaction within a transaction"

/-- C9 (witness): the theorem applied at a concrete non-empty input whose
BEGIN fails. -/
theorem C9_witness :
    localBatch beginFailsExec [Statement.new "INSERT INTO t VALUES (1)"] = .ok [] :=
  C9_begin_failure_swallowed beginFailsExec [Statement.new "INSERT INTO t VALUES (1)"]
    "cannot start a transaction within a transaction"
    (List.cons_ne_nil _ _) rfl

/-! HTTP backend claim developments. -/

theorem handleExecuteResults_single_ok (resp : ServerMsg) (r : StmtResult)
    (hres : resp.results = [.ok (.execute r)]) :
    handleExecuteResults resp = .ok (ResultSet.fromStmtResult r) := by
  rw [handleExecuteResults, hres]
  rfl

theorem executeInner_tx_ok (send : SendFn) (urlQ : String) (cookies : CookieMap)
    (txId : Nat) (stmt : Statement) (resp : ServerMsg) (b : String)
    (htx : 0 < txId)
    (hsend : send (requestUrl cookies txId urlQ) (requestMsg cookies txId stmt) = .ok resp)
    (hbaton : resp.baton = some b) :
    executeInner send urlQ cookies txId stmt =
      (AssocMap.insert cookies txId ⟨some b, resp.base_url⟩, handleExecuteResults resp) := by
  rw [executeInner, hsend]
  simp [htx, hbaton]

/-- C5 (confirmed): with an active transaction (txId > 0), a successful first
execute stores the response's baton and base_url in the cookie map under the
transaction id, and the second call's outbound request carries exactly that
stored baton and targets the stored base_url when one is present (the
configured query URL otherwise). -/
theorem C5_session_reuse (send : SendFn) (urlQ : String) (cookies : CookieMap)
    (txId : Nat) (stmt1 stmt2 : Statement) (resp : ServerMsg) (b : String)
    (r : StmtResult)
    (htx : 0 < txId)
    (hsend : send (requestUrl cookies txId urlQ) (requestMsg cookies txId stmt1) = .ok resp)
    (hbaton : resp.baton = some b)
    (hres : resp.results = [.ok (.execute r)]) :
    executeInner send urlQ cookies txId stmt1 =
      (AssocMap.insert cookies txId ⟨some b, resp.base_url⟩,
        .ok (ResultSet.fromStmtResult r)) ∧
    AssocMap.find? (AssocMap.insert cookies txId ⟨some b, resp.base_url⟩) txId =
      some ⟨some b, resp.base_url⟩ ∧
    (requestMsg (AssocMap.insert cookies txId ⟨some b, resp.base_url⟩) txId stmt2).baton =
      some b ∧
    requestUrl (AssocMap.insert cookies txId ⟨some b, resp.base_url⟩) txId urlQ =
      resp.base_url.getD urlQ := by
  have hfind := assoc_find_insert_self cookies txId
    (⟨some b, resp.base_url⟩ : Cookie)
  refine ⟨?_, hfind, ?_, ?_⟩
  · rw [executeInner_tx_ok send urlQ cookies txId stmt1 resp b htx hsend hbaton,
      handleExecuteResults_single_ok resp r hres]
  · rw [requestMsg, requestCookie, if_pos htx, hfind]
    rfl
  · rw [requestUrl, requestCookie, if_pos htx, hfind]
    rfl

/-- Shared concrete URL for the HTTP witnesses. -/
def wurl : String := "https://db.example/v2/pipeline"

/-- Server response carrying a baton and a single Ok Execute result. -/
def okExecResp (n : Nat) : ServerMsg :=
  { baton := some "baton-1", base_url := none,
    results := [.ok (.execute (sampleResult n))] }

/-- Transport that answers every request with a fixed good response. -/
def alwaysOkSend : SendFn := fun _ _ => .ok (okExecResp 5)

/-- C5 (witness): the session-reuse theorem at a concrete first call on a
fresh cookie map: the baton of the response is stored and carried by the
second call's outbound message. -/
theorem C5_witness :
    executeInner alwaysOkSend wurl [] 1 (Statement.new "SELECT 1") =
      (AssocMap.insert [] 1 ⟨some "baton-1", none⟩,
        .ok (ResultSet.fromStmtResult (sampleResult 5))) ∧
    AssocMap.find? (AssocMap.insert [] 1 (⟨some "baton-1", none⟩ : Cookie)) 1 =
      some ⟨some "baton-1", none⟩ ∧
    (requestMsg (AssocMap.insert [] 1 (⟨some "baton-1", none⟩ : Cookie)) 1
      (Statement.new "SELECT 2")).baton = some "baton-1" ∧
    requestUrl (AssocMap.insert [] 1 (⟨some "baton-1", none⟩ : Cookie)) 1 wurl =
      (none : Option String).getD wurl :=
  C5_session_reuse alwaysOkSend wurl [] 1 (Statement.new "SELECT 1")
    (Statement.new "SELECT 2") (okExecResp 5) "baton-1" (sampleResult 5)
    (by decide) rfl rfl rfl

/-- C6 (confirmed): with an active transaction (txId > 0), a server response
without a baton makes execute_inner fail with the fatal
"Stream closed: server returned empty baton" error, leaving the cookie map
unchanged. -/
theorem C6_missing_baton_fatal (send : SendFn) (urlQ : String)
    (cookies : CookieMap) (txId : Nat) (stmt : Statement) (resp : ServerMsg)
    (htx : 0 < txId)
    (hsend : send (requestUrl cookies txId urlQ) (requestMsg cookies txId stmt) = .ok resp)
    (hbaton : resp.baton = none) :
    executeInner send urlQ cookies txId stmt = (cookies, .error .streamClosed) := by
  rw [executeInner, hsend]
  simp [htx, hbaton]

/-- Transport whose responses never carry a baton. -/
def noBatonSend : SendFn := fun _ _ =>
  .ok { baton := none, base_url := none,
        results := [.ok (.execute (sampleResult 6))] }

/-- C6 (witness): the missing-baton theorem at a concrete in-transaction
call. -/
theorem C6_witness :
    executeInner noBatonSend wurl [(1, ⟨some "tok0", none⟩)] 1
      (Statement.new "SELECT 1") =
      ([(1, ⟨some "tok0", none⟩)], .error .streamClosed) :=
  C6_missing_baton_fatal noBatonSend wurl [(1, ⟨some "tok0", none⟩)] 1
    (Statement.new "SELECT 1")
    { baton := none, base_url := none,
      results := [.ok (.execute (sampleResult 6))] }
    (by decide) rfl rfl

/-- Cookie map before the C7 scenario: transaction 1 has a live session. -/
def liveCookies : CookieMap := [(1, ⟨some "tok0", none⟩)]

/-- Cookie map after rollback of transaction 1 released the session. -/
def releasedCookies : CookieMap :=
  (rollbackTransaction alwaysOkSend wurl liveCookies 1).1

/-- C7 (counterexample): after rollback of transaction 1 succeeded and
released its cookie, another execute on transaction id 1 does NOT fail with a
misuse / no-such-session error: the lookup falls back to the default cookie,
the outbound request carries no baton at all, and the call succeeds. -/
theorem C7_counterexample :
    (rollbackTransaction alwaysOkSend wurl liveCookies 1).2 = .ok () ∧
    AssocMap.find? releasedCookies 1 = none ∧
    (requestMsg releasedCookies 1 (Statement.new "SELECT 1")).baton = none ∧
    (executeInner alwaysOkSend wurl releasedCookies 1 (Statement.new "SELECT 1")).2 =
      .ok (ResultSet.fromStmtResult (sampleResult 5)) :=
  ⟨rfl, rfl, rfl, rfl⟩

/-- C7 (amended): operating on a transaction id with no stored cookie (as
after commit/rollback released it) is not detected client-side: the HTTP
backend falls back to the default cookie, sends the request WITHOUT a baton
to the configured query URL (implicitly opening a new stream server-side),
and succeeds whenever the server answers with a baton and an Ok Execute
result. -/
theorem C7_amended_no_session_fallback (send : SendFn) (urlQ : String)
    (cookies : CookieMap) (txId : Nat) (stmt : Statement) (resp : ServerMsg)
    (b : String) (r : StmtResult)
    (htx : 0 < txId)
    (hgone : AssocMap.find? cookies txId = none)
    (hsend : send urlQ { baton := none, requests := [.execute (intoHrana stmt)] } = .ok resp)
    (hbaton : resp.baton = some b)
    (hres : resp.results = [.ok (.execute r)]) :
    (requestMsg cookies txId stmt).baton = none ∧
    requestUrl cookies txId urlQ = urlQ ∧
    (executeInner send urlQ cookies txId stmt).2 = .ok (ResultSet.fromStmtResult r) := by
  have hcookie : requestCookie cookies txId = default := by
    rw [requestCookie, if_pos htx, hgone]
    rfl
  have hmsg : requestMsg cookies txId stmt =
      { baton := none, requests := [.execute (intoHrana stmt)] } := by
    rw [requestMsg, hcookie]
    rfl
  have hurl : requestUrl cookies txId urlQ = urlQ := by
    rw [requestUrl, hcookie]
    rfl
  refine ⟨by rw [hmsg], hurl, ?_⟩
  rw [executeInner, hurl, hmsg, hsend]
  simp [htx, hbaton, handleExecuteResults_single_ok resp r hres]

/-- C7 (witness): the amended theorem at a concrete cookie-free transaction
id. -/
theorem C7_witness :
    (requestMsg [] 3 (Statement.new "SELECT 1")).baton = none ∧
    requestUrl [] 3 wurl = wurl ∧
    (executeInner alwaysOkSend wurl [] 3 (Statement.new "SELECT 1")).2 =
      .ok (ResultSet.fromStmtResult (sampleResult 5)) :=
  C7_amended_no_session_fallback alwaysOkSend wurl [] 3 (Statement.new "SELECT 1")
    (okExecResp 5) "baton-1" (sampleResult 5) (by decide) rfl rfl rfl rfl

/-- Transport that answers Execute requests with a good response but fails
the Close request at the transport level. -/
def closeFailsSend : SendFn := fun _ msg =>
  match msg.requests with
  | [StreamRequest.close] => .error "connection reset by peer"
  | _ => .ok (okExecResp 8)

/-- Baton map before the C8 scenario: transaction 1 has a stored baton. -/
def liveBatons : BatonMap := [(1, "tok0")]

/-- C8 (counterexample): on the reqwest backend, when the COMMIT statement
succeeds but the best-effort close request's send fails, commit_transaction
still returns Ok — but the baton entry for the transaction is NOT removed
from the map (close_stream_for propagates the send failure with ? before the
remove), refuting the claimed no-leak bookkeeping. -/
theorem C8_counterexample :
    (reqwestCommitTransaction closeFailsSend wurl liveBatons 1).2 = .ok () ∧
    AssocMap.find? (reqwestCommitTransaction closeFailsSend wurl liveBatons 1).1 1 =
      some "baton-1" :=
  ⟨rfl, rfl⟩

/-- C8 (amended): when the COMMIT statement itself succeeds, both HTTP
backends return Ok from commit_transaction even if the subsequent best-effort
close fails; the generic http backend then removes the cookie entry
unconditionally, while the reqwest backend removes the baton entry only when
the close request's send succeeds and keeps it when the send fails. -/
theorem C8_amended_commit_teardown (send : SendFn) (urlQ : String)
    (cookies : CookieMap) (txId : Nat) (cookies' : CookieMap) (rs : ResultSet)
    (rsend : SendFn) (rurlQ : String) (rbatons : BatonMap) (rtxId : Nat)
    (rbatons' : BatonMap) (rrs : ResultSet)
    (hhttp : executeInner send urlQ cookies txId (Statement.new "COMMIT") =
      (cookies', .ok rs))
    (hreq : reqwestExecuteInner rsend rurlQ rbatons rtxId (Statement.new "COMMIT") =
      (rbatons', .ok rrs)) :
    commitTransaction send urlQ cookies txId = (AssocMap.erase cookies' txId, .ok ()) ∧
    AssocMap.find? (AssocMap.erase cookies' txId) txId = none ∧
    (reqwestCommitTransaction rsend rurlQ rbatons rtxId).2 = .ok () ∧
    (reqwestCommitTransaction rsend rurlQ rbatons rtxId).1 =
      (match rsend rurlQ ⟨AssocMap.find? rbatons' rtxId, [.close]⟩ with
       | .error _ => rbatons'
       | .ok _ => AssocMap.erase rbatons' rtxId) := by
  refine ⟨?_, assoc_find_erase_self cookies' txId, ?_, ?_⟩
  · rw [commitTransaction, hhttp]
    rfl
  · rw [reqwestCommitTransaction, hreq]
  · rw [reqwestCommitTransaction, hreq]
    show (reqwestCloseStreamFor rsend rurlQ rbatons' rtxId).1 = _
    cases hclose : rsend rurlQ ⟨AssocMap.find? rbatons' rtxId, [.close]⟩ with
    | error e => rw [reqwestCloseStreamFor, hclose]
    | ok resp => rw [reqwestCloseStreamFor, hclose]

/-- C8 (witness): the amended teardown theorem at concrete inputs — the
generic backend on a map holding a cookie for transaction 2, the reqwest
backend on a map holding a baton for transaction 1 with a failing close. -/
theorem C8_witness :
    commitTransaction alwaysOkSend wurl [(2, ⟨some "h0", none⟩)] 2 =
      (AssocMap.erase (AssocMap.insert [(2, ⟨some "h0", none⟩)] 2
        ⟨some "baton-1", none⟩) 2, .ok ()) ∧
    AssocMap.find? (AssocMap.erase (AssocMap.insert [(2, ⟨some "h0", none⟩)] 2
      (⟨some "baton-1", none⟩ : Cookie)) 2) 2 = none ∧
    (reqwestCommitTransaction closeFailsSend wurl liveBatons 1).2 = .ok () ∧
    (reqwestCommitTransaction closeFailsSend wurl liveBatons 1).1 =
      (match closeFailsSend wurl ⟨AssocMap.find? (AssocMap.insert liveBatons 1 "baton-1") 1, [.close]⟩ with
       | .error _ => AssocMap.insert liveBatons 1 "baton-1"
       | .ok _ => AssocMap.erase (AssocMap.insert liveBatons 1 "baton-1") 1) :=
  C8_amended_commit_teardown alwaysOkSend wurl [(2, ⟨some "h0", none⟩)] 2
    (AssocMap.insert [(2, ⟨some "h0", none⟩)] 2 ⟨some "baton-1", none⟩)
    (ResultSet.fromStmtResult (sampleResult 5))
    closeFailsSend wurl liveBatons 1
    (AssocMap.insert liveBatons 1 "baton-1")
    (ResultSet.fromStmtResult (sampleResult 8))
    rfl rfl

/-- C10 (confirmed): the feature-enabled StmtResult → ResultSet conversion
(which indexes each row at every column position to build the name-to-value
map) succeeds exactly when every row has at least as many values as there are
columns; a shorter row makes the conversion hit the out-of-bounds indexing
(a panic in the Rust source, modelled as none). -/
theorem C10_mapped_conversion_total_iff (value : StmtResult) :
    (ResultSet.fromStmtResultMapped value).isSome = true ↔
      ∀ row ∈ value.rows, value.cols.length ≤ row.length := by
  have hlen : (columnNames value.cols).length = value.cols.length := by
    simp [columnNames]
  have hmain := rowsFromStmt_isSome (columnNames value.cols) value.rows
  rw [hlen] at hmain
  rw [ResultSet.fromStmtResultMapped]
  cases hr : rowsFromStmt (columnNames value.cols) value.rows with
  | none =>
    rw [hr] at hmain
    simpa using hmain
  | some rows =>
    rw [hr] at hmain
    simpa using hmain

/-- StmtResult with two columns but a row holding a single value. -/
def shortRowStmtResult : StmtResult :=
  { cols := [⟨some "a"⟩, ⟨some "b"⟩], rows := [[Value.integer 1]],
    affected_row_count := 0, last_insert_rowid := none }

/-- C10 (witness): the totality criterion applied at a concrete StmtResult
whose row is shorter than its column list, where the conversion indeed
fails. -/
theorem C10_witness :
    ((ResultSet.fromStmtResultMapped shortRowStmtResult).isSome = true ↔
      ∀ row ∈ shortRowStmtResult.rows, shortRowStmtResult.cols.length ≤ row.length) ∧
    ResultSet.fromStmtResultMapped shortRowStmtResult = none :=
  ⟨C10_mapped_conversion_total_iff shortRowStmtResult, rfl⟩

end Libsql
